import Mathlib

/-!
Verification of the transcript-assembly and attachment-resolution core of
`slack_export_viewer.py` (the `SlackExportViewer` class).

The Python source is shallowly embedded below:
* the filesystem "files directory" of a channel is a `List String` of the
  filenames present, in directory-listing order (paths are modelled by the
  filename inside the channel's files directory, and `os.path.relpath` is
  modelled as the identity on these names);
* the network boundary is an oracle `Nat → FetchOutcome` giving the outcome
  of the n-th GET request performed in the run;
* Python exceptions that escape a function are modelled with `Except`;
* machine integers of the MD5 computation are `Nat` reduced `% 2^32`.
-/

namespace SlackViewer

/-- `sub.isPrefixOf l` at every suffix: the embedding of Python's
`sub in s` substring test on the character lists of the strings. -/
def listContainsSub (sub : List Char) : List Char → Bool
  | [] => sub.isEmpty
  | c :: rest => sub.isPrefixOf (c :: rest) || listContainsSub sub rest

/-- Python `sub in s` for strings. -/
def containsSub (s sub : String) : Bool :=
  listContainsSub sub.data s.data

/-- Python `s.startswith(pre)` (and `filename.startswith(file_id)`), on the
character lists of the strings. -/
def strStartsWith (s pre : String) : Bool :=
  pre.data.isPrefixOf s.data

/-- The extension part of Python `os.path.splitext(s)[1]`: the suffix of the
final path component starting at its last dot, provided some character other
than a dot precedes that dot within the component. -/
def splitextExt (s : String) : String :=
  let base := (s.data.splitOn '/').getLastD []
  let idxs := (List.range base.length).filter (fun i => base.getD i ' ' == '.')
  match idxs.getLast? with
  | none => ""
  | some i =>
      if (base.take i).any (fun c => c != '.') then
        String.mk (base.drop i)
      else ""

/-! ## MD5 (RFC 1321), on natural numbers reduced mod 2^32 -/

/-- Encode one unicode code point as its UTF-8 byte sequence. -/
def utf8Bytes (c : Char) : List Nat :=
  let n := c.toNat
  if n < 0x80 then [n]
  else if n < 0x800 then
    [0xC0 + n / 64, 0x80 + n % 64]
  else if n < 0x10000 then
    [0xE0 + n / 4096, 0x80 + n / 64 % 64, 0x80 + n % 64]
  else
    [0xF0 + n / 262144, 0x80 + n / 4096 % 64, 0x80 + n / 64 % 64, 0x80 + n % 64]

/-- Python `s.encode()`: the UTF-8 bytes of a string. -/
def strBytes (s : String) : List Nat :=
  (s.data.map utf8Bytes).flatten

/-- The 64 MD5 sine-derived round constants. -/
def md5K : List Nat :=
  [3614090360, 3905402710, 606105819, 3250441966, 4118548399, 1200080426,
   2821735955, 4249261313, 1770035416, 2336552879, 4294925233, 2304563134,
   1804603682, 4254626195, 2792965006, 1236535329, 4129170786, 3225465664,
   643717713, 3921069994, 3593408605, 38016083, 3634488961, 3889429448,
   568446438, 3275163606, 4107603335, 1163531501, 2850285829, 4243563512,
   1735328473, 2368359562, 4294588738, 2272392833, 1839030562, 4259657740,
   2763975236, 1272893353, 4139469664, 3200236656, 681279174, 3936430074,
   3572445317, 76029189, 3654602809, 3873151461, 530742520, 3299628645,
   4096336452, 1126891415, 2878612391, 4237533241, 1700485571, 2399980690,
   4293915773, 2240044497, 1873313359, 4264355552, 2734768916, 1309151649,
   4149444226, 3174756917, 718787259, 3951481745]

/-- The 64 MD5 per-round left-rotation amounts. -/
def md5S : List Nat :=
  [7, 12, 17, 22, 7, 12, 17, 22, 7, 12, 17, 22, 7, 12, 17, 22,
   5, 9, 14, 20, 5, 9, 14, 20, 5, 9, 14, 20, 5, 9, 14, 20,
   4, 11, 16, 23, 4, 11, 16, 23, 4, 11, 16, 23, 4, 11, 16, 23,
   6, 10, 15, 21, 6, 10, 15, 21, 6, 10, 15, 21, 6, 10, 15, 21]

def w32 : Nat := 4294967296

/-- 32-bit left rotation on a `Nat` already reduced mod `2^32`. -/
def rotl32 (x s : Nat) : Nat :=
  (x * 2 ^ s + x / 2 ^ (32 - s)) % w32

/-- MD5 padding: append `0x80`, zero bytes to 56 mod 64, then the original
bit length as 8 little-endian bytes. -/
def md5Pad (msg : List Nat) : List Nat :=
  let bitLen := (msg.length * 8) % 2 ^ 64
  let zeros := (119 - msg.length % 64) % 64
  msg ++ [0x80] ++ List.replicate zeros 0 ++
    (List.range 8).map (fun i => bitLen / 2 ^ (8 * i) % 256)

/-- Decode 4 consecutive little-endian bytes at word index `g` of a block. -/
def md5Word (block : List Nat) (g : Nat) : Nat :=
  block.getD (4 * g) 0 + block.getD (4 * g + 1) 0 * 256 +
    block.getD (4 * g + 2) 0 * 65536 + block.getD (4 * g + 3) 0 * 16777216

/-- One of the 64 MD5 rounds applied to the state `(a, b, c, d)`. -/
def md5Round (block : List Nat) (st : Nat × Nat × Nat × Nat) (i : Nat) :
    Nat × Nat × Nat × Nat :=
  let (a, b, c, d) := st
  let mask := w32 - 1
  let (f, g) :=
    if i < 16 then ((b &&& c) ||| ((b ^^^ mask) &&& d), i)
    else if i < 32 then ((d &&& b) ||| ((d ^^^ mask) &&& c), (5 * i + 1) % 16)
    else if i < 48 then (b ^^^ c ^^^ d, (3 * i + 5) % 16)
    else (c ^^^ (b ||| (d ^^^ mask)), (7 * i) % 16)
  let f2 := (f + a + md5K.getD i 0 + md5Word block g) % w32
  (d, (b + rotl32 f2 (md5S.getD i 0)) % w32, b, c)

/-- Absorb one 64-byte block into the running MD5 state. -/
def md5Block (st : Nat × Nat × Nat × Nat) (block : List Nat) :
    Nat × Nat × Nat × Nat :=
  let (a0, b0, c0, d0) := st
  let (a, b, c, d) := (List.range 64).foldl (md5Round block) st
  ((a0 + a) % w32, (b0 + b) % w32, (c0 + c) % w32, (d0 + d) % w32)

/-- Feed one byte into the running state, absorbing a block each time the
pending buffer reaches 64 bytes. -/
def md5Absorb (st : (Nat × Nat × Nat × Nat) × List Nat) (byte : Nat) :
    (Nat × Nat × Nat × Nat) × List Nat :=
  let buf := st.2 ++ [byte]
  if buf.length = 64 then (md5Block st.1 buf, []) else (st.1, buf)

/-- Fold the MD5 compression over the padded message, 64 bytes at a time
(the padded length is always a multiple of 64, so the buffer ends empty). -/
def md5Blocks (st : Nat × Nat × Nat × Nat) (bytes : List Nat) :
    Nat × Nat × Nat × Nat :=
  (bytes.foldl md5Absorb (st, [])).1

/-- One lowercase hexadecimal digit. -/
def hexDigit (n : Nat) : Char :=
  if n < 10 then Char.ofNat (48 + n) else Char.ofNat (87 + n)

/-- A 32-bit word as 4 little-endian bytes, each as two lowercase hex digits. -/
def hexWordLE (x : Nat) : List Char :=
  ((List.range 4).map (fun i =>
    let byte := x / 2 ^ (8 * i) % 256
    [hexDigit (byte / 16), hexDigit (byte % 16)])).flatten

/-- Python `hashlib.md5(s.encode()).hexdigest()`. -/
def md5hex (s : String) : String :=
  let (a, b, c, d) :=
    md5Blocks (1732584193, 4023233417, 2562383102, 271733878)
      (md5Pad (strBytes s))
  String.mk (hexWordLE a ++ hexWordLE b ++ hexWordLE c ++ hexWordLE d)

/-! ## Data model

`FileInfo` is one entry of a message's `files` list (or of an attachment's
`files` list): the fields the resolver reads, each `Option` because Python
reads them with `dict.get`. -/

structure FileInfo where
  id : Option String
  url_private : Option String
  mode : Option String
  name : Option String
deriving DecidableEq, Repr

/-- The resolver's output for one file reference: the input record plus the
fields `process_message` writes (`file_id` is the derived identity used for
lookups; for attachment files without an id it is also written back into the
record). -/
structure ProcessedFile where
  orig : FileInfo
  file_id : String
  local_path : Option String
  download_failed : Bool
  failure_reason : Option String
deriving DecidableEq, Repr

/-- One row of the per-channel `channel_missing_files` /
`channel_downloaded_files` logs. -/
structure LogEntry where
  timestamp : String
  file_id : String
  mode : String
deriving DecidableEq, Repr

/-- Per-channel mutable bookkeeping: the files directory contents, the two
CSV logs, and the number of network GETs performed so far (the index into the
fetch oracle). -/
structure ChannelState where
  fs : List String
  missing : List LogEntry
  downloaded : List LogEntry
  fetchCount : Nat
deriving DecidableEq, Repr

/-- The outcome the network produces for one GET request. -/
inductive FetchOutcome
  /-- HTTP 200; the body (of `bodySize` bytes) is written to disk. -/
  | ok (bodySize : Nat)
  /-- A response with a non-200 status (raised and caught as a URL error). -/
  | badStatus (code : Nat)
  | httpError (code : Nat)
  | urlError
  | timeout
  /-- A generic failure before the body is written (caught by the outer
  `except Exception`). -/
  | ioError
deriving DecidableEq, Repr

/-- The value of `download_file`: the updated files directory, the returned
`(local_path, success)` pair, and how many GETs were performed (0 or 1). -/
structure DownloadResult where
  fs : List String
  path : Option String
  success : Bool
  fetches : Nat
deriving DecidableEq, Repr

/-- Python truthiness of an optional string (`None` and `''` are falsy). -/
def truthy : Option String → Bool
  | none => false
  | some s => s ≠ ""

/-- `SlackExportViewer.get_file_path`: first entry of the files directory
whose name starts with `file_id` (a nonexistent directory is the empty
listing). -/
def get_file_path (file_id : String) (files_dir : List String) : Option String :=
  files_dir.find? (fun filename => strStartsWith filename file_id)

/-- `SlackExportViewer.download_file`.  `url`, `file_id`, `original_name`
are its arguments (`original_name = none` models a falsy name); `fs` is the
channel's files directory and `outcome` the network's answer should a GET be
issued. -/
def download_file (url file_id : String) (original_name : Option String)
    (fs : List String) (outcome : FetchOutcome) : DownloadResult :=
  if ¬(url ≠ "" ∧ (strStartsWith url "http://" ∨ strStartsWith url "https://")) then
    ⟨fs, some url, true, 0⟩
  else if ¬(containsSub url "slack.com" ∨ containsSub url "slack-edge.com") then
    ⟨fs, some url, true, 0⟩
  else
    let filename :=
      match original_name with
      | some nm => file_id ++ "-" ++ nm
      | none =>
          let ext := splitextExt url
          file_id ++ (if ext = "" then ".unknown" else ext)
    match get_file_path file_id fs with
    | some existing_file => ⟨fs, some existing_file, true, 0⟩
    | none =>
        match outcome with
        | .ok bodySize =>
            if bodySize = 0 then ⟨fs ++ [filename], none, false, 1⟩
            else ⟨fs ++ [filename], some filename, true, 1⟩
        | _ => ⟨fs, none, false, 1⟩

/-- The identity derivation of `process_message` lines 281-286: the `id`
field read with default `''`; when that is empty AND the reference came from
an attachment block, the MD5 hex digest of `url_private` instead. -/
def derivedId (fi : FileInfo) (is_attachment : Bool) : String :=
  let file_id0 := fi.id.getD ""
  if file_id0 = "" ∧ is_attachment then md5hex (fi.url_private.getD "")
  else file_id0

/-- The body of the per-file loop of `SlackExportViewer.process_message`
(lines 279-344): resolve one file reference against the channel state.
`is_attachment` says whether the reference came from an attachment block;
`ts` is `msg.get('ts', '0')`. -/
def processFile (oracle : Nat → FetchOutcome) (ts : String) (st : ChannelState)
    (fi : FileInfo) (is_attachment : Bool) : ChannelState × ProcessedFile :=
  let file_id := derivedId fi is_attachment
  let mode := fi.mode.getD ""
  let name := fi.name.getD "Unnamed file"
  match get_file_path file_id st.fs with
  | some existing_path =>
      ({ st with downloaded := st.downloaded ++ [⟨ts, file_id, "exists"⟩] },
       ⟨fi, file_id, some existing_path, false, none⟩)
  | none =>
      let url := fi.url_private.getD ""
      if url = "" ∨ mode = "tombstone" ∨ mode = "hidden_by_limit" then
        ({ st with missing := st.missing ++
            [⟨ts, file_id, if mode = "" then "url_missing" else mode⟩] },
         ⟨fi, file_id, none, true,
          some ("File " ++ (if mode = "" then "URL missing" else mode))⟩)
      else
        let r := download_file url file_id (if name = "" then none else some name)
          st.fs (oracle st.fetchCount)
        let st2 := { st with fs := r.fs, fetchCount := st.fetchCount + r.fetches }
        if r.success ∧ truthy r.path then
          ({ st2 with downloaded := st2.downloaded ++ [⟨ts, file_id, "downloaded"⟩] },
           ⟨fi, file_id, r.path, false, none⟩)
        else
          ({ st2 with missing := st2.missing ++ [⟨ts, file_id, "download_failed"⟩] },
           ⟨fi, file_id, none, true, some "Download failed"⟩)

/-- The whole per-file loop: resolve a list of references left to right,
threading the channel state. -/
def processFiles (oracle : Nat → FetchOutcome) (ts : String) (st : ChannelState) :
    List (FileInfo × Bool) → ChannelState × List ProcessedFile
  | [] => (st, [])
  | (fi, isAtt) :: rest =>
      let (st2, pf) := processFile oracle ts st fi isAtt
      let (st3, pfs) := processFiles oracle ts st2 rest
      (st3, pf :: pfs)

/-- One message of a day file: the fields the core reads.  `attachments` is
the list of each attachment block's `files` list (a block without a `files`
key contributes `[]`). -/
structure Message where
  ts : Option String
  thread_ts : Option String
  files : List FileInfo
  attachments : List (List FileInfo)
deriving DecidableEq, Repr

/-- The flattened file list of a message: regular files (tagged `false`)
followed by all attachment files (tagged `true`). -/
def allFiles (msg : Message) : List (FileInfo × Bool) :=
  msg.files.map (fun fi => (fi, false)) ++
    (msg.attachments.map (fun fl => fl.map (fun fi => (fi, true)))).flatten

/-- A message after `process_message`: the original fields plus the processed
file list (and, once `process_channel` is done, the `has_replies` mark). -/
structure PMsg where
  ts : Option String
  thread_ts : Option String
  files : List ProcessedFile
  has_replies : Bool
deriving DecidableEq, Repr

/-- `SlackExportViewer.process_message`: resolve every file reference of one
message (`has_replies` is filled in later by `process_channel` and starts
out `false`). -/
def process_message (oracle : Nat → FetchOutcome) (msg : Message)
    (st : ChannelState) : ChannelState × PMsg :=
  let (st2, pfs) := processFiles oracle (msg.ts.getD "0") st (allFiles msg)
  (st2, ⟨msg.ts, msg.thread_ts, pfs, false⟩)

/-! ## Channel pipeline -/

/-- Numeric value of decimal digits. -/
def digitsVal (l : List Char) : Nat :=
  l.foldl (fun a c => a * 10 + (c.toNat - 48)) 0

/-- Parse an unsigned decimal literal `digits [. digits]` (at least one digit
overall) as a rational. -/
def parseUnsignedTs (l : List Char) : Option ℚ :=
  let intPart := l.takeWhile Char.isDigit
  let rest := l.dropWhile Char.isDigit
  match rest with
  | [] => if intPart.isEmpty then none else some (digitsVal intPart)
  | c :: frac =>
      if c = '.' ∧ frac.all Char.isDigit ∧ ¬(intPart.isEmpty ∧ frac.isEmpty) then
        some ((digitsVal intPart : ℚ) + (digitsVal frac : ℚ) / (10 : ℚ) ^ frac.length)
      else none

/-- Python `float(s)` on a timestamp string, as an exact rational: optional
sign, then `digits [. digits]`.  (Python's `float` also accepts exponents,
`inf`/`nan` and surrounding whitespace, none of which are decimal Slack
timestamps; on those this parser and `float` may differ, but both accept all
`"[-+]?digits[.digits]"` strings and both reject strings like `"abc"`.) -/
def parseTs (s : String) : Option ℚ :=
  match s.data with
  | '-' :: rest => (parseUnsignedTs rest).map (fun q => -q)
  | '+' :: rest => parseUnsignedTs rest
  | l => parseUnsignedTs l

/-- The timestamp defaulting of `process_channel` lines 1237-1239: a message
with no `ts` gets the sentinel `"0"`. -/
def defaultTs (m : Message) : Message :=
  if m.ts = none then { m with ts := some "0" } else m

/-- `msg['ts']` once every message has a timestamp. -/
def tsOf (m : Message) : String := m.ts.getD "0"

/-- The `thread_reply_counts` dict: insertion-ordered association list. -/
def dictGet (d : List (String × Nat)) (t : String) : Option Nat :=
  (d.find? (fun e => e.1 = t)).map (fun e => e.2)

/-- Write a key of the dict, appending it when absent. -/
def dictSet (d : List (String × Nat)) (t : String) (v : Nat) :
    List (String × Nat) :=
  if (d.find? (fun e => e.1 = t)).isSome
  then d.map (fun e => if e.1 = t then (t, v) else e)
  else d ++ [(t, v)]

/-- `if thread_ts not in thread_reply_counts: ... = 0` followed by the
conditional `+= 1` (lines 1250-1255). -/
def bumpCount (d : List (String × Nat)) (t : String) (isReply : Bool) :
    List (String × Nat) :=
  let c0 := (dictGet d t).getD 0
  dictSet d t (if isReply then c0 + 1 else c0)

/-- `messages_with_replies.add(t)` on a set modelled as a duplicate-free
insertion-ordered list. -/
def setAdd (s : List String) (t : String) : List String :=
  if t ∈ s then s else s ++ [t]

/-- The accumulator of the first pass of `process_channel`: processed
messages in input order, the `thread_reply_counts` dict, the
`messages_with_replies` set, the channel state, and how many missing-
timestamp warnings were logged. -/
structure ChanAcc where
  all : List PMsg
  counts : List (String × Nat)
  withReplies : List String
  st : ChannelState
  tsWarnings : Nat
deriving DecidableEq, Repr

/-- One iteration of the first pass of `process_channel` (lines 1235-1263):
default the timestamp (logging a warning), resolve attachments, and do the
thread bookkeeping. -/
def chanStep (oracle : Nat → FetchOutcome) (acc : ChanAcc) (m0 : Message) :
    ChanAcc :=
  let warn := if m0.ts = none then 1 else 0
  let m := defaultTs m0
  let (st2, pm) := process_message oracle m acc.st
  let acc2 := { acc with all := acc.all ++ [pm], st := st2,
                         tsWarnings := acc.tsWarnings + warn }
  match m.thread_ts with
  | none => acc2
  | some t =>
      if t = "" then acc2
      else
        let isReply := t ≠ tsOf m
        { acc2 with counts := bumpCount acc2.counts t isReply,
                    withReplies := if isReply then setAdd acc2.withReplies t
                                   else acc2.withReplies }

/-- What `process_channel` hands to rendering and reporting. -/
structure ChannelOutput where
  messages : List PMsg
  counts : List (String × Nat)
  withReplies : List String
  st : ChannelState
  tsWarnings : Nat
deriving DecidableEq, Repr

/-- The sort key of `all_messages.sort(key=lambda x: float(x['ts']))`. -/
def pmKey (pm : PMsg) : Option ℚ := parseTs (pm.ts.getD "0")

/-- The `Bool` comparison the stable sort uses (total preorder on the key). -/
def pmLe (a b : PMsg) : Bool := decide ((pmKey a).getD 0 ≤ (pmKey b).getD 0)

/-- Stable insertion: place `x` before the first element that `x` may
precede (ties keep the inserted element, which came earlier, in front). -/
def insertSorted (le : α → α → Bool) (x : α) : List α → List α
  | [] => [x]
  | y :: ys => if le x y then x :: y :: ys else y :: insertSorted le x ys

/-- A stable sort (the embedding of CPython's stable `list.sort`). -/
def insSort (le : α → α → Bool) : List α → List α
  | [] => []
  | x :: xs => insertSorted le x (insSort le xs)

/-- The first pass of `process_channel`: the loop over all day-file
messages. -/
def channelFirstPass (oracle : Nat → FetchOutcome) (dayMsgs : List Message)
    (st0 : ChannelState) : ChanAcc :=
  dayMsgs.foldl (chanStep oracle) ⟨[], [], [], st0, 0⟩

/-- The `has_replies` marking of `process_channel` lines 1272-1280. -/
def markReplies (wr : List String) (pm : PMsg) : PMsg :=
  { pm with has_replies := wr.contains (pm.ts.getD "0") }

/-- The tail of `SlackExportViewer.process_channel` after the first pass:
early return when no messages, the stable sort by `float(ts)` (raising
`ValueError`, i.e. `Except.error`, when some timestamp is not a number),
and the `has_replies` marking. -/
def chanFinish (acc : ChanAcc) : Except String ChannelOutput :=
  if acc.all = [] then
    .ok ⟨[], acc.counts, acc.withReplies, acc.st, acc.tsWarnings⟩
  else if _h : ∀ pm ∈ acc.all, (pmKey pm).isSome then
    .ok ⟨(insSort pmLe acc.all).map (markReplies acc.withReplies),
        acc.counts, acc.withReplies, acc.st, acc.tsWarnings⟩
  else .error "ValueError: could not convert string to float"

def process_channel (oracle : Nat → FetchOutcome) (dayMsgs : List Message)
    (st0 : ChannelState) : Except String ChannelOutput :=
  chanFinish (channelFirstPass oracle dayMsgs st0)

/-- What `main`'s per-channel loop records for one channel. -/
inductive ChannelReport
  /-- The channel's data directory was not found: a warning is logged and the
  channel is skipped. -/
  | skippedMissingDir
  | processed (out : ChannelOutput)
deriving DecidableEq, Repr

/-- One channel's input: `none` when its data directory is missing, plus the
initial contents of its output files directory. -/
def process_channel_opt (oracle : Nat → FetchOutcome)
    (c : Option (List Message) × List String) : Except String ChannelReport :=
  match c.1 with
  | none => .ok .skippedMissingDir
  | some msgs => (process_channel oracle msgs ⟨c.2, [], [], 0⟩).map .processed

/-- The per-channel loop of `main` (lines 1616-1640): channels are processed
in order; `process_channel` is called with no surrounding `try`, so an
exception (`Except.error`) propagates out of the loop and ends the whole run
with the remaining channels unprocessed. -/
def runChannels (oracle : Nat → FetchOutcome) :
    List (Option (List Message) × List String) →
    List ChannelReport × Option String
  | [] => ([], none)
  | c :: rest =>
      match process_channel_opt oracle c with
      | .error e => ([], some e)
      | .ok rep =>
          let (reps, err) := runChannels oracle rest
          (rep :: reps, err)

/-- `True` of a transport outcome the caller must treat as failed: every
error and also an HTTP 200 whose body is empty. -/
def fetchFails (o : FetchOutcome) : Bool :=
  match o with
  | .ok n => n == 0
  | _ => true

/-- A file reference that carries the explicit id `I` and passes every
pre-fetch filter: a non-empty http(s) Slack-host URL and a mode that is
neither tombstoned nor hidden-by-limit.  Such a reference reaches the
network fetch whenever the cache misses. -/
def goodRef (I : String) (fi : FileInfo) : Prop :=
  fi.id = some I ∧ I ≠ "" ∧
  fi.url_private.getD "" ≠ "" ∧
  (strStartsWith (fi.url_private.getD "") "http://" ∨
   strStartsWith (fi.url_private.getD "") "https://") ∧
  (containsSub (fi.url_private.getD "") "slack.com" ∨
   containsSub (fi.url_private.getD "") "slack-edge.com") ∧
  fi.mode.getD "" ≠ "tombstone" ∧ fi.mode.getD "" ≠ "hidden_by_limit"

instance (I : String) (fi : FileInfo) : Decidable (goodRef I fi) := by
  unfold goodRef; infer_instance

/-- `True` of a message that is a reply in thread `T`: it carries `T` as its
thread key and its own timestamp differs from `T`. -/
def isReplyTo (T : String) (m : Message) : Bool :=
  decide (m.thread_ts = some T ∧ tsOf m ≠ T)

/-- The number of replies of thread `T` among `msgs`. -/
def repliesIn (T : String) (msgs : List Message) : Nat :=
  msgs.countP (isReplyTo T)

/-! ## Theorems -/

theorem truthy_isSome {p : Option String} (h : truthy p = true) : p.isSome := by
  cases p <;> simp_all [truthy]

/-- C9: an empty, non-http(s), or non-Slack-host URL makes `download_file`
return success with the URL itself as the path, touching neither the network
nor the filesystem. -/
theorem download_file_allowlist_noop (url file_id : String) (name : Option String)
    (fs : List String) (outcome : FetchOutcome)
    (h : url = "" ∨ (¬ strStartsWith url "http://" ∧ ¬ strStartsWith url "https://") ∨
         (¬ containsSub url "slack.com" ∧ ¬ containsSub url "slack-edge.com")) :
    download_file url file_id name fs outcome = ⟨fs, some url, true, 0⟩ := by
  unfold download_file
  by_cases h1 : url ≠ "" ∧ (strStartsWith url "http://" ∨ strStartsWith url "https://")
  · have h3 : ¬ (containsSub url "slack.com" ∨ containsSub url "slack-edge.com") := by
      rcases h with h | h | h
      · exact absurd h h1.1
      · rcases h1.2 with hs | hs
        · exact absurd hs (by simpa using h.1)
        · exact absurd hs (by simpa using h.2)
      · rintro (hc | hc)
        · exact absurd hc (by simpa using h.1)
        · exact absurd hc (by simpa using h.2)
    rw [if_neg (not_not_intro h1), if_pos h3]
  · rw [if_pos h1]

theorem download_file_allowlist_noop_witness :
    download_file "https://example.com/a.png" "F1" (some "a.png") []
        FetchOutcome.timeout =
      ⟨[], some "https://example.com/a.png", true, 0⟩ :=
  download_file_allowlist_noop _ _ _ _ _ (Or.inr (Or.inr (by decide)))

/-- C7: whenever a genuine fetch is attempted (valid Slack URL, no cached
file) and the transport fails in any way — or reports success but delivers
an empty body — `download_file` returns `(None, False)`; no exception
escapes (the embedding is a total function). -/
theorem download_file_converts_failures (url file_id : String)
    (name : Option String) (fs : List String) (outcome : FetchOutcome)
    (hurl : url ≠ "" ∧ (strStartsWith url "http://" ∨ strStartsWith url "https://"))
    (hhost : containsSub url "slack.com" ∨ containsSub url "slack-edge.com")
    (hcache : get_file_path file_id fs = none)
    (hfail : fetchFails outcome = true) :
    (download_file url file_id name fs outcome).path = none ∧
    (download_file url file_id name fs outcome).success = false := by
  unfold download_file
  rw [if_neg (not_not_intro hurl), if_neg (not_not_intro hhost)]
  cases outcome with
  | ok n =>
      have hn : n = 0 := by simpa [fetchFails] using hfail
      simp [hcache, hn]
  | badStatus c => simp [hcache]
  | httpError c => simp [hcache]
  | urlError => simp [hcache]
  | timeout => simp [hcache]
  | ioError => simp [hcache]

theorem download_file_converts_failures_witness :
    (download_file "https://files.slack.com/a.png" "F1" (some "a.png") []
        FetchOutcome.timeout).path = none ∧
    (download_file "https://files.slack.com/a.png" "F1" (some "a.png") []
        FetchOutcome.timeout).success = false :=
  download_file_converts_failures _ _ _ _ _ (by decide) (by decide) (by decide)
    (by decide)

/-- C8: with no cached file, a reference with an empty `url_private` or a
tombstoned / hidden-by-limit mode is marked failed with a mode-derived
reason, one record with the mode tag goes to the missing-files log, and the
fetch counter is untouched. -/
theorem processFile_missing_mode (oracle : Nat → FetchOutcome) (ts : String)
    (st : ChannelState) (fi : FileInfo) (isAtt : Bool)
    (hcache : get_file_path (derivedId fi isAtt) st.fs = none)
    (hcond : fi.url_private.getD "" = "" ∨ fi.mode.getD "" = "tombstone" ∨
             fi.mode.getD "" = "hidden_by_limit") :
    processFile oracle ts st fi isAtt =
      ({ st with missing := st.missing ++
          [⟨ts, derivedId fi isAtt,
            if fi.mode.getD "" = "" then "url_missing" else fi.mode.getD ""⟩] },
       ⟨fi, derivedId fi isAtt, none, true,
        some ("File " ++
          (if fi.mode.getD "" = "" then "URL missing" else fi.mode.getD ""))⟩) := by
  unfold processFile
  simp only [hcache]
  rw [if_pos hcond]

theorem processFile_missing_mode_witness :
    processFile (fun _ => FetchOutcome.ok 1) "1.0" ⟨[], [], [], 0⟩
        ⟨some "F9", some "https://files.slack.com/a.png", some "tombstone",
         some "a.png"⟩ false =
      (⟨[], [⟨"1.0", "F9", "tombstone"⟩], [], 0⟩,
       ⟨⟨some "F9", some "https://files.slack.com/a.png", some "tombstone",
         some "a.png"⟩, "F9", none, true, some "File tombstone"⟩) :=
  processFile_missing_mode _ _ _ _ _ (by decide) (by decide)

/-- C10: a non-attachment reference with no id gets the empty identity, and
the cache lookup then returns the first file of a non-empty files directory,
so the reference is resolved to that arbitrary cached file with no fetch. -/
theorem processFile_empty_id_matches_first (oracle : Nat → FetchOutcome)
    (ts : String) (st : ChannelState) (fi : FileInfo) (f : String)
    (rest : List String) (hid : fi.id.getD "" = "") (hfs : st.fs = f :: rest) :
    processFile oracle ts st fi false =
      ({ st with downloaded := st.downloaded ++ [⟨ts, "", "exists"⟩] },
       ⟨fi, "", some f, false, none⟩) := by
  have hder : derivedId fi false = "" := by simp [derivedId, hid]
  unfold processFile
  rw [hder, hfs]
  simp [get_file_path, strStartsWith]

theorem processFile_empty_id_matches_first_witness :
    processFile (fun _ => FetchOutcome.ok 1) "1.0"
        ⟨["zzz-unrelated.png"], [], [], 0⟩
        ⟨none, some "https://files.slack.com/b.png", none, some "b.png"⟩
        false =
      (⟨["zzz-unrelated.png"], [], [⟨"1.0", "", "exists"⟩], 0⟩,
       ⟨⟨none, some "https://files.slack.com/b.png", none, some "b.png"⟩,
        "", some "zzz-unrelated.png", false, none⟩) :=
  processFile_empty_id_matches_first _ _ _ _ "zzz-unrelated.png" [] (by decide)
    (by decide)

theorem processFile_dichotomy (oracle : Nat → FetchOutcome) (ts : String)
    (st : ChannelState) (fi : FileInfo) (isAtt : Bool) :
    ((processFile oracle ts st fi isAtt).2.local_path.isSome ∧
     (processFile oracle ts st fi isAtt).2.download_failed = false ∧
     (processFile oracle ts st fi isAtt).2.failure_reason = none) ∨
    ((processFile oracle ts st fi isAtt).2.local_path = none ∧
     (processFile oracle ts st fi isAtt).2.download_failed = true ∧
     (processFile oracle ts st fi isAtt).2.failure_reason.isSome) := by
  unfold processFile
  cases hc : get_file_path (derivedId fi isAtt) st.fs with
  | some p => left; simp [hc]
  | none =>
      simp only [hc]
      by_cases h1 : fi.url_private.getD "" = "" ∨ fi.mode.getD "" = "tombstone" ∨
          fi.mode.getD "" = "hidden_by_limit"
      · right; simp [h1]
      · rw [if_neg h1]
        by_cases h2 : (download_file (fi.url_private.getD "") (derivedId fi isAtt)
            (if fi.name.getD "Unnamed file" = "" then none
             else some (fi.name.getD "Unnamed file"))
            st.fs (oracle st.fetchCount)).success = true ∧
            truthy (download_file (fi.url_private.getD "") (derivedId fi isAtt)
              (if fi.name.getD "Unnamed file" = "" then none
               else some (fi.name.getD "Unnamed file"))
              st.fs (oracle st.fetchCount)).path = true
        · left
          rw [if_pos h2]
          exact ⟨truthy_isSome h2.2, rfl, rfl⟩
        · right
          rw [if_neg h2]
          exact ⟨rfl, rfl, rfl⟩

theorem processFiles_mem (oracle : Nat → FetchOutcome) (ts : String) :
    ∀ (l : List (FileInfo × Bool)) (st : ChannelState) (pf : ProcessedFile),
      pf ∈ (processFiles oracle ts st l).2 →
      ∃ st2 fi isAtt, pf = (processFile oracle ts st2 fi isAtt).2
  | [], _, pf, h => absurd h (by simp [processFiles])
  | (fi, isAtt) :: rest, st, pf, h => by
      simp only [processFiles, List.mem_cons] at h
      rcases h with h | h
      · exact ⟨st, fi, isAtt, h⟩
      · exact processFiles_mem oracle ts rest _ pf h

/-- C1: every file record produced by `process_message` ends in exactly one
of the two states — a local path with `download_failed = false` and no
failure reason, or no local path with `download_failed = true` and a
failure reason. -/
theorem process_message_resolution_dichotomy (oracle : Nat → FetchOutcome)
    (msg : Message) (st : ChannelState) :
    ∀ pf ∈ (process_message oracle msg st).2.files,
      (pf.local_path.isSome ∧ pf.download_failed = false ∧
       pf.failure_reason = none) ∨
      (pf.local_path = none ∧ pf.download_failed = true ∧
       pf.failure_reason.isSome) := by
  intro pf hpf
  simp only [process_message] at hpf
  obtain ⟨st2, fi, isAtt, rfl⟩ :=
    processFiles_mem oracle (msg.ts.getD "0") (allFiles msg) st pf hpf
  exact processFile_dichotomy oracle (msg.ts.getD "0") st2 fi isAtt

theorem process_message_resolution_dichotomy_witness :
    ((⟨⟨some "F1", some "https://files.slack.com/a.png", none, some "a.png"⟩,
       "F1", none, true, some "Download failed"⟩ : ProcessedFile) ∈
      (process_message (fun _ => FetchOutcome.urlError)
        ⟨some "1.0", none,
         [⟨some "F1", some "https://files.slack.com/a.png", none, some "a.png"⟩],
         []⟩ ⟨[], [], [], 0⟩).2.files) ∧
    (((⟨⟨some "F1", some "https://files.slack.com/a.png", none, some "a.png"⟩,
        "F1", none, true, some "Download failed"⟩ : ProcessedFile).local_path.isSome ∧
      (⟨⟨some "F1", some "https://files.slack.com/a.png", none, some "a.png"⟩,
        "F1", none, true, some "Download failed"⟩ : ProcessedFile).download_failed = false ∧
      (⟨⟨some "F1", some "https://files.slack.com/a.png", none, some "a.png"⟩,
        "F1", none, true, some "Download failed"⟩ : ProcessedFile).failure_reason = none) ∨
     ((⟨⟨some "F1", some "https://files.slack.com/a.png", none, some "a.png"⟩,
        "F1", none, true, some "Download failed"⟩ : ProcessedFile).local_path = none ∧
      (⟨⟨some "F1", some "https://files.slack.com/a.png", none, some "a.png"⟩,
        "F1", none, true, some "Download failed"⟩ : ProcessedFile).download_failed = true ∧
      (⟨⟨some "F1", some "https://files.slack.com/a.png", none, some "a.png"⟩,
        "F1", none, true, some "Download failed"⟩ : ProcessedFile).failure_reason.isSome)) :=
  ⟨by decide,
   process_message_resolution_dichotomy (fun _ => FetchOutcome.urlError)
     ⟨some "1.0", none,
      [⟨some "F1", some "https://files.slack.com/a.png", none, some "a.png"⟩],
      []⟩ ⟨[], [], [], 0⟩
     ⟨⟨some "F1", some "https://files.slack.com/a.png", none, some "a.png"⟩,
      "F1", none, true, some "Download failed"⟩ (by decide)⟩

set_option maxRecDepth 200000

/-- C3 (counterexample): a file reference appearing directly in the `files`
list with no id and a non-empty `url_private` does NOT receive the MD5 hash
of its URL as identity — it gets the empty string. -/
theorem direct_file_identity_not_md5 :
    (processFile (fun _ => FetchOutcome.urlError) "0" ⟨[], [], [], 0⟩
        ⟨none, some "u", none, none⟩ false).2.file_id ≠ md5hex "u" ∧
    (processFile (fun _ => FetchOutcome.urlError) "0" ⟨[], [], [], 0⟩
        ⟨none, some "u", none, none⟩ false).2.file_id = "" := by
  constructor
  · decide
  · decide

/-- C3 (amended): the identity recorded for a processed file reference is
its `id` field when that is non-empty; otherwise the MD5 hex digest of
`url_private` when the reference came from an attachment block, and the
empty string when it came from the message's own `files` list. -/
theorem processFile_identity (oracle : Nat → FetchOutcome) (ts : String)
    (st : ChannelState) (fi : FileInfo) (isAtt : Bool) :
    (processFile oracle ts st fi isAtt).2.file_id =
      (if fi.id.getD "" ≠ "" then fi.id.getD ""
       else if isAtt then md5hex (fi.url_private.getD "") else "") := by
  have hfid : (processFile oracle ts st fi isAtt).2.file_id = derivedId fi isAtt := by
    unfold processFile
    cases hc : get_file_path (derivedId fi isAtt) st.fs with
    | some p => simp [hc]
    | none =>
        simp only [hc]
        by_cases h1 : fi.url_private.getD "" = "" ∨ fi.mode.getD "" = "tombstone" ∨
            fi.mode.getD "" = "hidden_by_limit"
        · simp [h1]
        · rw [if_neg h1]
          split <;> split <;> rfl
  rw [hfid]
  unfold derivedId
  by_cases h0 : fi.id.getD "" = ""
  · by_cases ha : isAtt <;> simp [h0, ha]
  · simp [h0]

theorem strStartsWith_append (I x : String) : strStartsWith (I ++ x) I = true := by
  simp [strStartsWith]

theorem append_ne_empty (I x : String) (h : I ≠ "") : I ++ x ≠ "" := by
  intro hc
  apply h
  have h2 := congrArg String.data hc
  simp at h2
  exact String.ext h2.1

theorem get_file_path_append_last (I f : String) (fs : List String)
    (h : get_file_path I fs = none) (hf : strStartsWith f I = true) :
    get_file_path I (fs ++ [f]) = some f := by
  unfold get_file_path at h ⊢
  simp [List.find?_append, h, hf]

theorem goodRef_derivedId (I : String) (fi : FileInfo) (b : Bool)
    (h : goodRef I fi) : derivedId fi b = I := by
  obtain ⟨h1, h2, -⟩ := h
  simp [derivedId, h1, h2]

theorem processFile_cache_hit (oracle : Nat → FetchOutcome) (ts : String)
    (st : ChannelState) (fi : FileInfo) (isAtt : Bool) (p : String)
    (hc : get_file_path (derivedId fi isAtt) st.fs = some p) :
    processFile oracle ts st fi isAtt =
      ({ st with downloaded := st.downloaded ++
          [⟨ts, derivedId fi isAtt, "exists"⟩] },
       ⟨fi, derivedId fi isAtt, some p, false, none⟩) := by
  unfold processFile
  simp [hc]

theorem download_file_good_fetch (url I : String) (name : Option String)
    (fs : List String) (k : Nat) (hI : I ≠ "") (hu1 : url ≠ "")
    (hu2 : strStartsWith url "http://" ∨ strStartsWith url "https://")
    (hh : containsSub url "slack.com" ∨ containsSub url "slack-edge.com")
    (hc : get_file_path I fs = none) :
    ∃ fname, strStartsWith fname I = true ∧ fname ≠ "" ∧
      download_file url I name fs (FetchOutcome.ok (k + 1)) =
        ⟨fs ++ [fname], some fname, true, 1⟩ := by
  cases name with
  | some nm =>
      have hstr : I ++ "-" ++ nm = I ++ ("-" ++ nm) := by
        apply String.ext
        simp
      refine ⟨I ++ "-" ++ nm, ?_, ?_, ?_⟩
      · rw [hstr]
        exact strStartsWith_append _ _
      · rw [hstr]
        exact append_ne_empty _ _ hI
      · unfold download_file
        rw [if_neg (not_not_intro ⟨hu1, hu2⟩), if_neg (not_not_intro hh)]
        simp only [hc]
        simp
  | none =>
      refine ⟨I ++ (if splitextExt url = "" then ".unknown" else splitextExt url),
        strStartsWith_append _ _, append_ne_empty _ _ hI, ?_⟩
      unfold download_file
      rw [if_neg (not_not_intro ⟨hu1, hu2⟩), if_neg (not_not_intro hh)]
      simp only [hc]
      simp

theorem processFile_miss_fetch (oracle : Nat → FetchOutcome) (ts : String)
    (st : ChannelState) (fi : FileInfo) (isAtt : Bool) (I : String)
    (hg : goodRef I fi) (hc : get_file_path I st.fs = none) (k : Nat)
    (hk : oracle st.fetchCount = FetchOutcome.ok (k + 1)) :
    ∃ fname, strStartsWith fname I = true ∧
      processFile oracle ts st fi isAtt =
        ({ st with fs := st.fs ++ [fname],
                   downloaded := st.downloaded ++ [⟨ts, I, "downloaded"⟩],
                   fetchCount := st.fetchCount + 1 },
         ⟨fi, I, some fname, false, none⟩) := by
  have hder : derivedId fi isAtt = I := goodRef_derivedId I fi isAtt hg
  obtain ⟨h1, h2, h3, h4, h5, h6, h7⟩ := hg
  obtain ⟨fname, hpre, hne, hdl⟩ :=
    download_file_good_fetch (fi.url_private.getD "") I
      (if fi.name.getD "Unnamed file" = "" then none
       else some (fi.name.getD "Unnamed file")) st.fs k h2 h3 h4 h5 hc
  refine ⟨fname, hpre, ?_⟩
  unfold processFile
  rw [hder]
  simp only [hc]
  rw [if_neg (by push_neg; exact ⟨h3, h6, h7⟩)]
  rw [hk, hdl]
  rw [if_pos ⟨rfl, by simp [truthy, hne]⟩]

theorem download_file_empty_body (url I : String) (name : Option String)
    (fs : List String) (hu1 : url ≠ "")
    (hu2 : strStartsWith url "http://" ∨ strStartsWith url "https://")
    (hh : containsSub url "slack.com" ∨ containsSub url "slack-edge.com")
    (hc : get_file_path I fs = none) :
    ∃ fname, strStartsWith fname I = true ∧
      download_file url I name fs (FetchOutcome.ok 0) =
        ⟨fs ++ [fname], none, false, 1⟩ := by
  cases name with
  | some nm =>
      have hstr : I ++ "-" ++ nm = I ++ ("-" ++ nm) := by
        apply String.ext
        simp
      refine ⟨I ++ "-" ++ nm, ?_, ?_⟩
      · rw [hstr]
        exact strStartsWith_append _ _
      · unfold download_file
        rw [if_neg (not_not_intro ⟨hu1, hu2⟩), if_neg (not_not_intro hh)]
        simp only [hc]
        simp
  | none =>
      refine ⟨I ++ (if splitextExt url = "" then ".unknown" else splitextExt url),
        strStartsWith_append _ _, ?_⟩
      unfold download_file
      rw [if_neg (not_not_intro ⟨hu1, hu2⟩), if_neg (not_not_intro hh)]
      simp only [hc]
      simp

/-- Any fetch whose response body is written to disk — a genuine success or
an HTTP 200 with an empty body (reported as failed, but the zero-byte file
remains) — performs one network request and leaves a file whose name starts
with the identity, so later cache lookups for that identity hit. -/
theorem processFile_miss_writes (oracle : Nat → FetchOutcome) (ts : String)
    (st : ChannelState) (fi : FileInfo) (isAtt : Bool) (I : String)
    (hg : goodRef I fi) (hc : get_file_path I st.fs = none) (k : Nat)
    (hk : oracle st.fetchCount = FetchOutcome.ok k) :
    (processFile oracle ts st fi isAtt).1.fetchCount = st.fetchCount + 1 ∧
    (get_file_path I (processFile oracle ts st fi isAtt).1.fs).isSome := by
  have hder : derivedId fi isAtt = I := goodRef_derivedId I fi isAtt hg
  obtain ⟨h1, h2, h3, h4, h5, h6, h7⟩ := hg
  cases k with
  | zero =>
      obtain ⟨fname, hpre, hdl⟩ :=
        download_file_empty_body (fi.url_private.getD "") I
          (if fi.name.getD "Unnamed file" = "" then none
           else some (fi.name.getD "Unnamed file")) st.fs h3 h4 h5 hc
      have hres : processFile oracle ts st fi isAtt =
          ({ st with fs := st.fs ++ [fname],
                     missing := st.missing ++ [⟨ts, I, "download_failed"⟩],
                     fetchCount := st.fetchCount + 1 },
           ⟨fi, I, none, true, some "Download failed"⟩) := by
        unfold processFile
        rw [hder]
        simp only [hc]
        rw [if_neg (by push_neg; exact ⟨h3, h6, h7⟩)]
        rw [hk, hdl]
        rw [if_neg (by simp [truthy])]
      rw [hres]
      refine ⟨rfl, ?_⟩
      rw [get_file_path_append_last I fname st.fs hc hpre]
      rfl
  | succ k2 =>
      obtain ⟨fname, hpre, hres⟩ :=
        processFile_miss_fetch oracle ts st fi isAtt I
          ⟨h1, h2, h3, h4, h5, h6, h7⟩ hc k2 hk
      rw [hres]
      refine ⟨rfl, ?_⟩
      rw [get_file_path_append_last I fname st.fs hc hpre]
      rfl

theorem processFiles_cached (oracle : Nat → FetchOutcome) (ts I : String) :
    ∀ (l : List (FileInfo × Bool)) (st : ChannelState),
      (∀ e ∈ l, goodRef I e.1) → (get_file_path I st.fs).isSome →
      (processFiles oracle ts st l).1.fs = st.fs ∧
      (processFiles oracle ts st l).1.fetchCount = st.fetchCount
  | [], st, _, _ => ⟨rfl, rfl⟩
  | (fi, b) :: rest, st, hg, hhit => by
      have hgf := hg _ (List.mem_cons_self _ _)
      have hder : derivedId fi b = I := goodRef_derivedId _ _ _ hgf
      obtain ⟨p, hp⟩ := Option.isSome_iff_exists.mp hhit
      have hstep := processFile_cache_hit oracle ts st fi b p (by rw [hder]; exact hp)
      have IH := processFiles_cached oracle ts I rest
        { st with downloaded := st.downloaded ++ [⟨ts, derivedId fi b, "exists"⟩] }
        (fun e he => hg e (List.mem_cons_of_mem _ he)) (by simpa using hhit)
      simp only [processFiles, hstep]
      simpa using IH

theorem processFiles_first_fetch (oracle : Nat → FetchOutcome) (ts I : String)
    (l : List (FileInfo × Bool)) (st : ChannelState) (hne : l ≠ [])
    (hg : ∀ e ∈ l, goodRef I e.1) (hc : get_file_path I st.fs = none)
    (hOk : ∀ n, ∃ k, oracle n = FetchOutcome.ok k) :
    (processFiles oracle ts st l).1.fetchCount = st.fetchCount + 1 ∧
    (get_file_path I (processFiles oracle ts st l).1.fs).isSome := by
  match l with
  | [] => exact absurd rfl hne
  | (fi, b) :: rest =>
      have hgf := hg _ (List.mem_cons_self _ _)
      obtain ⟨k, hk⟩ := hOk st.fetchCount
      have hw := processFile_miss_writes oracle ts st fi b I hgf hc k hk
      have hfold : (processFiles oracle ts st ((fi, b) :: rest)).1 =
          (processFiles oracle ts (processFile oracle ts st fi b).1 rest).1 := rfl
      have IH := processFiles_cached oracle ts I rest
        (processFile oracle ts st fi b).1
        (fun e he => hg e (List.mem_cons_of_mem _ he)) hw.2
      rw [hfold]
      constructor
      · rw [IH.2, hw.1]
      · rw [IH.1]
        exact hw.2

theorem allFiles_defaultTs (m : Message) : allFiles (defaultTs m) = allFiles m := by
  unfold defaultTs
  split <;> rfl

theorem chanStep_st (oracle : Nat → FetchOutcome) (acc : ChanAcc) (m : Message) :
    (chanStep oracle acc m).st =
      (processFiles oracle ((defaultTs m).ts.getD "0") acc.st
        (allFiles (defaultTs m))).1 := by
  unfold chanStep process_message
  cases h : (defaultTs m).thread_ts with
  | none => simp [h]
  | some t =>
      by_cases ht : t = "" <;> simp [h, ht]

theorem foldChan_cached (oracle : Nat → FetchOutcome) (I : String) :
    ∀ (msgs : List Message) (acc : ChanAcc),
      (∀ m ∈ msgs, ∀ e ∈ allFiles m, goodRef I e.1) →
      (get_file_path I acc.st.fs).isSome →
      (msgs.foldl (chanStep oracle) acc).st.fs = acc.st.fs ∧
      (msgs.foldl (chanStep oracle) acc).st.fetchCount = acc.st.fetchCount
  | [], acc, _, _ => ⟨rfl, rfl⟩
  | m :: rest, acc, hg, hhit => by
      rw [List.foldl_cons]
      have hgm : ∀ e ∈ allFiles (defaultTs m), goodRef I e.1 := by
        rw [allFiles_defaultTs]
        exact hg m (List.mem_cons_self _ _)
      have hstep := processFiles_cached oracle ((defaultTs m).ts.getD "0") I
        (allFiles (defaultTs m)) acc.st hgm hhit
      have hst := chanStep_st oracle acc m
      have IH := foldChan_cached oracle I rest (chanStep oracle acc m)
        (fun m2 hm2 e he => hg m2 (List.mem_cons_of_mem _ hm2) e he)
        (by rw [hst, hstep.1]; exact hhit)
      refine ⟨?_, ?_⟩
      · rw [IH.1, hst, hstep.1]
      · rw [IH.2, hst, hstep.2]

theorem foldChan_first_fetch (oracle : Nat → FetchOutcome) (I : String)
    (hOk : ∀ n, ∃ k, oracle n = FetchOutcome.ok k) :
    ∀ (msgs : List Message) (acc : ChanAcc),
      (∀ m ∈ msgs, ∀ e ∈ allFiles m, goodRef I e.1) →
      get_file_path I acc.st.fs = none →
      (∃ m ∈ msgs, allFiles m ≠ []) →
      (msgs.foldl (chanStep oracle) acc).st.fetchCount = acc.st.fetchCount + 1
  | [], _, _, _, hex => by simp at hex
  | m :: rest, acc, hg, hc, hex => by
      rw [List.foldl_cons]
      have hst := chanStep_st oracle acc m
      by_cases hemp : allFiles m = []
      · have hstacc : (chanStep oracle acc m).st = acc.st := by
          rw [hst, allFiles_defaultTs, hemp]
          rfl
        have hex2 : ∃ m2 ∈ rest, allFiles m2 ≠ [] := by
          rcases hex with ⟨m2, hm2, hne2⟩
          rcases List.mem_cons.mp hm2 with h | h
          · exact absurd (h ▸ hemp) hne2
          · exact ⟨m2, h, hne2⟩
        rw [foldChan_first_fetch oracle I hOk rest (chanStep oracle acc m)
          (fun m2 hm2 e he => hg m2 (List.mem_cons_of_mem _ hm2) e he)
          (by rw [hstacc]; exact hc) hex2, hstacc]
      · have hgm : ∀ e ∈ allFiles (defaultTs m), goodRef I e.1 := by
          rw [allFiles_defaultTs]
          exact hg m (List.mem_cons_self _ _)
        have hstep := processFiles_first_fetch oracle ((defaultTs m).ts.getD "0") I
          (allFiles (defaultTs m)) acc.st (by rw [allFiles_defaultTs]; exact hemp)
          hgm hc hOk
        have hrest := foldChan_cached oracle I rest (chanStep oracle acc m)
          (fun m2 hm2 e he => hg m2 (List.mem_cons_of_mem _ hm2) e he)
          (by rw [hst]; exact hstep.2)
        rw [hrest.2, hst, hstep.1]

/-- C2 (amended): within a channel whose references all carry the identity
`I`, (a) if a file for `I` is already cached no reference triggers a fetch
(re-runs are fetch-free); (b) if nothing is cached and every attempted
fetch writes its response body to disk — a genuine success, or an HTTP 200
with an empty body, which is reported as failed but leaves a zero-byte file
behind — the whole run performs exactly one fetch for `I`; (c) a cache hit
always resolves to the cached path with no fetch.  (Only a transport
failure that raises before the body is written leaves no cache entry; the
code then retries on the next same-identity reference — see the
counterexample.) -/
theorem channel_identity_fetch_dedup (oracle : Nat → FetchOutcome) (I : String)
    (dayMsgs : List Message) (st0 : ChannelState)
    (hOk : ∀ n, ∃ k, oracle n = FetchOutcome.ok k)
    (hRefs : ∀ m ∈ dayMsgs, ∀ e ∈ allFiles m, goodRef I e.1) :
    ((get_file_path I st0.fs).isSome →
      (channelFirstPass oracle dayMsgs st0).st.fetchCount = st0.fetchCount) ∧
    (get_file_path I st0.fs = none → (∃ m ∈ dayMsgs, allFiles m ≠ []) →
      (channelFirstPass oracle dayMsgs st0).st.fetchCount = st0.fetchCount + 1) ∧
    (∀ (ts : String) (st : ChannelState) (fi : FileInfo) (isAtt : Bool) (p : String),
      get_file_path (derivedId fi isAtt) st.fs = some p →
      processFile oracle ts st fi isAtt =
        ({ st with downloaded := st.downloaded ++
            [⟨ts, derivedId fi isAtt, "exists"⟩] },
         ⟨fi, derivedId fi isAtt, some p, false, none⟩)) := by
  refine ⟨?_, ?_, ?_⟩
  · intro hhit
    exact (foldChan_cached oracle I dayMsgs ⟨[], [], [], st0, 0⟩ hRefs hhit).2
  · intro hc hex
    exact foldChan_first_fetch oracle I hOk dayMsgs ⟨[], [], [], st0, 0⟩ hRefs hc hex
  · intro ts st fi isAtt p hp
    exact processFile_cache_hit oracle ts st fi isAtt p hp

/-- C2 (counterexample to the claim as stated): two references with the same
identity `F1` in one message, every fetch failing — the run performs two
fetch attempts, not exactly one. -/
theorem channel_identity_refetch_on_failure :
    (process_message (fun _ => FetchOutcome.urlError)
        ⟨some "1.0", none,
         [⟨some "F1", some "https://files.slack.com/a.png", none, some "a.png"⟩,
          ⟨some "F1", some "https://files.slack.com/a.png", none, some "a.png"⟩],
         []⟩ ⟨[], [], [], 0⟩).1.fetchCount = 2 := by
  decide

theorem channel_identity_fetch_dedup_witness :
    (channelFirstPass (fun _ => FetchOutcome.ok 0)
        [⟨some "1.0", none,
          [⟨some "F1", some "https://files.slack.com/a.png", none, some "a.png"⟩,
           ⟨some "F1", some "https://files.slack.com/a.png", none, some "a.png"⟩],
          []⟩] ⟨[], [], [], 0⟩).st.fetchCount = 0 + 1 :=
  (channel_identity_fetch_dedup (fun _ => FetchOutcome.ok 0) "F1"
    [⟨some "1.0", none,
      [⟨some "F1", some "https://files.slack.com/a.png", none, some "a.png"⟩,
       ⟨some "F1", some "https://files.slack.com/a.png", none, some "a.png"⟩],
      []⟩] ⟨[], [], [], 0⟩
    (fun _ => ⟨0, rfl⟩) (by decide)).2.1 (by decide) (by decide)

theorem defaultTs_thread_ts (m : Message) :
    (defaultTs m).thread_ts = m.thread_ts := by
  unfold defaultTs
  split <;> rfl

theorem defaultTs_tsOf (m : Message) : tsOf (defaultTs m) = tsOf m := by
  unfold defaultTs tsOf
  split <;> simp_all

theorem dictGet_map_set (t : String) (v : Nat) :
    ∀ d : List (String × Nat), (d.find? (fun e => e.1 = t)).isSome →
      dictGet (d.map (fun e => if e.1 = t then (t, v) else e)) t = some v
  | [], h => by simp at h
  | e :: rest, h => by
      by_cases he : e.1 = t
      · simp [dictGet, he]
      · have h2 : ((rest.find? (fun e => e.1 = t))).isSome := by
          rw [List.find?_cons_of_neg] at h
          · exact h
          · simp [he]
        have IH := dictGet_map_set t v rest h2
        simp only [List.map_cons, if_neg he]
        unfold dictGet at IH ⊢
        rw [List.find?_cons_of_neg _ (by simp [he])]
        exact IH

theorem dictGet_map_set_other (t u : String) (v : Nat) (h : u ≠ t) :
    ∀ d : List (String × Nat),
      dictGet (d.map (fun e => if e.1 = t then (t, v) else e)) u = dictGet d u
  | [] => rfl
  | e :: rest => by
      have IH := dictGet_map_set_other t u v h rest
      by_cases he : e.1 = t
      · have hne : t ≠ u := fun hc => h hc.symm
        simp only [List.map_cons, if_pos he]
        unfold dictGet at IH ⊢
        rw [List.find?_cons_of_neg _ (by simp [hne]),
            List.find?_cons_of_neg _ (by simp [he, hne])]
        exact IH
      · simp only [List.map_cons, if_neg he]
        by_cases hu : e.1 = u
        · unfold dictGet
          rw [List.find?_cons_of_pos _ (by simp [hu]),
              List.find?_cons_of_pos _ (by simp [hu])]
        · unfold dictGet at IH ⊢
          rw [List.find?_cons_of_neg _ (by simp [hu]),
              List.find?_cons_of_neg _ (by simp [hu])]
          exact IH

theorem dictGet_dictSet_self (d : List (String × Nat)) (t : String) (v : Nat) :
    dictGet (dictSet d t v) t = some v := by
  unfold dictSet
  by_cases h : (d.find? (fun e => e.1 = t)).isSome
  · rw [if_pos h]
    exact dictGet_map_set t v d h
  · rw [if_neg h]
    unfold dictGet
    have hn : d.find? (fun e => e.1 = t) = none :=
      Option.not_isSome_iff_eq_none.mp h
    rw [List.find?_append, hn]
    simp

theorem dictGet_dictSet_other (d : List (String × Nat)) (t u : String) (v : Nat)
    (h : u ≠ t) : dictGet (dictSet d t v) u = dictGet d u := by
  unfold dictSet
  by_cases hs : (d.find? (fun e => e.1 = t)).isSome
  · rw [if_pos hs]
    exact dictGet_map_set_other t u v h d
  · rw [if_neg hs]
    unfold dictGet
    rw [List.find?_append]
    have hn : ([(t, v)].find? (fun e => e.1 = u)) = none := by
      simp
      exact fun hc => h hc.symm
    rw [hn]
    simp

theorem dictGet_bumpCount_self (d : List (String × Nat)) (t : String) (r : Bool) :
    dictGet (bumpCount d t r) t =
      some ((dictGet d t).getD 0 + if r then 1 else 0) := by
  unfold bumpCount
  rw [dictGet_dictSet_self]
  cases r <;> simp

theorem dictGet_bumpCount_other (d : List (String × Nat)) (t u : String)
    (r : Bool) (h : u ≠ t) : dictGet (bumpCount d t r) u = dictGet d u :=
  dictGet_dictSet_other d t u _ h

theorem setAdd_contains (s : List String) (t u : String) :
    (setAdd s t).contains u = (s.contains u || decide (u = t)) := by
  unfold setAdd
  by_cases h : t ∈ s
  · rw [if_pos h]
    by_cases hu : u = t
    · subst hu
      simp [h]
    · simp [hu]
  · rw [if_neg h]
    by_cases hu : u = t
    · subst hu
      simp [List.contains_eq_any_beq, List.any_append]
    · simp [List.contains_eq_any_beq, List.any_append, hu]

theorem chanStep_counts_none (oracle : Nat → FetchOutcome) (acc : ChanAcc)
    (m : Message) (h : m.thread_ts = none) :
    (chanStep oracle acc m).counts = acc.counts := by
  have h2 : (defaultTs m).thread_ts = none := by rw [defaultTs_thread_ts, h]
  simp [chanStep, h2]

theorem chanStep_counts_empty (oracle : Nat → FetchOutcome) (acc : ChanAcc)
    (m : Message) (h : m.thread_ts = some "") :
    (chanStep oracle acc m).counts = acc.counts := by
  have h2 : (defaultTs m).thread_ts = some "" := by rw [defaultTs_thread_ts, h]
  simp [chanStep, h2]

theorem chanStep_counts_some (oracle : Nat → FetchOutcome) (acc : ChanAcc)
    (m : Message) (t : String) (h : m.thread_ts = some t) (ht : t ≠ "") :
    (chanStep oracle acc m).counts =
      bumpCount acc.counts t (decide (t ≠ tsOf m)) := by
  have h2 : (defaultTs m).thread_ts = some t := by rw [defaultTs_thread_ts, h]
  simp [chanStep, h2, ht, defaultTs_tsOf]

theorem chanStep_withReplies_none (oracle : Nat → FetchOutcome) (acc : ChanAcc)
    (m : Message) (h : m.thread_ts = none) :
    (chanStep oracle acc m).withReplies = acc.withReplies := by
  have h2 : (defaultTs m).thread_ts = none := by rw [defaultTs_thread_ts, h]
  simp [chanStep, h2]

theorem chanStep_withReplies_empty (oracle : Nat → FetchOutcome) (acc : ChanAcc)
    (m : Message) (h : m.thread_ts = some "") :
    (chanStep oracle acc m).withReplies = acc.withReplies := by
  have h2 : (defaultTs m).thread_ts = some "" := by rw [defaultTs_thread_ts, h]
  simp [chanStep, h2]

theorem chanStep_withReplies_some (oracle : Nat → FetchOutcome) (acc : ChanAcc)
    (m : Message) (t : String) (h : m.thread_ts = some t) (ht : t ≠ "") :
    (chanStep oracle acc m).withReplies =
      (if t ≠ tsOf m then setAdd acc.withReplies t else acc.withReplies) := by
  have h2 : (defaultTs m).thread_ts = some t := by rw [defaultTs_thread_ts, h]
  by_cases hr : t = tsOf m
  · simp [chanStep, h2, ht, defaultTs_tsOf, hr]
    split <;> rfl
  · simp [chanStep, h2, ht, defaultTs_tsOf, hr]

theorem exists_cons_thread (m : Message) (rest : List Message) (T : String) :
    (∃ m2 ∈ m :: rest, m2.thread_ts = some T) ↔
      (m.thread_ts = some T ∨ ∃ m2 ∈ rest, m2.thread_ts = some T) := by
  constructor
  · rintro ⟨m2, hm2, h2⟩
    rcases List.mem_cons.mp hm2 with h3 | h3
    · exact Or.inl (h3 ▸ h2)
    · exact Or.inr ⟨m2, h3, h2⟩
  · rintro (h | ⟨m2, hm2, h2⟩)
    · exact ⟨m, List.mem_cons_self _ _, h⟩
    · exact ⟨m2, List.mem_cons_of_mem _ hm2, h2⟩

theorem foldChan_counts (oracle : Nat → FetchOutcome) (T : String) (hT : T ≠ "") :
    ∀ (msgs : List Message) (acc : ChanAcc),
      dictGet (msgs.foldl (chanStep oracle) acc).counts T =
        (if (∃ m ∈ msgs, m.thread_ts = some T) ∨ (dictGet acc.counts T).isSome
         then some ((dictGet acc.counts T).getD 0 + repliesIn T msgs)
         else none)
  | [], acc => by
      simp only [List.foldl_nil, repliesIn, List.countP_nil]
      by_cases h : (dictGet acc.counts T).isSome
      · rw [if_pos (Or.inr h)]
        obtain ⟨v, hv⟩ := Option.isSome_iff_exists.mp h
        rw [hv]
        simp
      · rw [if_neg (by
          rintro (⟨m, hm, -⟩ | hs)
          · simp at hm
          · exact h hs)]
        exact Option.not_isSome_iff_eq_none.mp h
  | m :: rest, acc => by
      rw [List.foldl_cons]
      have IH := foldChan_counts oracle T hT rest (chanStep oracle acc m)
      rcases hmt : m.thread_ts with - | t
      · rw [chanStep_counts_none oracle acc m hmt] at IH
        rw [IH]
        have hA : (∃ m2 ∈ m :: rest, m2.thread_ts = some T) ↔
            (∃ m2 ∈ rest, m2.thread_ts = some T) := by
          rw [exists_cons_thread]
          simp [hmt]
        have hrm : isReplyTo T m = false := by simp [isReplyTo, hmt]
        have hcnt : repliesIn T (m :: rest) = repliesIn T rest := by
          unfold repliesIn
          rw [List.countP_cons, hrm]
          simp
        rw [hcnt]
        exact (if_congr (or_congr_left hA) rfl rfl).symm
      · by_cases htT : t = T
        · subst htT
          rw [chanStep_counts_some oracle acc m t hmt hT] at IH
          rw [dictGet_bumpCount_self] at IH
          set c2 := (dictGet acc.counts t).getD 0 +
            (if decide (t ≠ tsOf m) = true then 1 else 0) with hc2
          simp only [Option.isSome_some, eq_self_iff_true, or_true,
            Option.getD_some] at IH
          rw [if_pos trivial] at IH
          rw [IH]
          have hcond : (∃ m2 ∈ m :: rest, m2.thread_ts = some t) ∨
              (dictGet acc.counts t).isSome :=
            Or.inl ⟨m, List.mem_cons_self _ _, hmt⟩
          rw [if_pos hcond]
          congr 1
          have hrm : isReplyTo t m = decide (t ≠ tsOf m) := by
            by_cases hx : tsOf m = t
            · simp [isReplyTo, hmt, hx]
            · have hx2 : t ≠ tsOf m := fun h2 => hx h2.symm
              simp [isReplyTo, hmt, hx, hx2]
          unfold repliesIn
          rw [List.countP_cons, hrm, hc2]
          ring
        · have hne : m.thread_ts ≠ some T := by
            rw [hmt]
            intro h2
            exact htT (Option.some.inj h2)
          have hcounts2 : (chanStep oracle acc m).counts = acc.counts ∨
              (chanStep oracle acc m).counts =
                bumpCount acc.counts t (decide (t ≠ tsOf m)) := by
            by_cases ht : t = ""
            · exact Or.inl (chanStep_counts_empty oracle acc m (ht ▸ hmt))
            · exact Or.inr (chanStep_counts_some oracle acc m t hmt ht)
          have hget : dictGet (chanStep oracle acc m).counts T =
              dictGet acc.counts T := by
            rcases hcounts2 with h2 | h2
            · rw [h2]
            · rw [h2]
              exact dictGet_bumpCount_other acc.counts t T _
                (fun h3 => htT h3.symm)
          rw [hget] at IH
          rw [IH]
          have hA : (∃ m2 ∈ m :: rest, m2.thread_ts = some T) ↔
              (∃ m2 ∈ rest, m2.thread_ts = some T) := by
            rw [exists_cons_thread]
            simp [hne]
          have hrm : isReplyTo T m = false := by
            simp [isReplyTo, hne]
          have hcnt : repliesIn T (m :: rest) = repliesIn T rest := by
            unfold repliesIn
            rw [List.countP_cons, hrm]
            simp
          rw [hcnt]
          exact (if_congr (or_congr_left hA) rfl rfl).symm

theorem foldChan_withReplies (oracle : Nat → FetchOutcome) (T : String)
    (hT : T ≠ "") :
    ∀ (msgs : List Message) (acc : ChanAcc),
      (msgs.foldl (chanStep oracle) acc).withReplies.contains T =
        (acc.withReplies.contains T || msgs.any (isReplyTo T))
  | [], acc => by simp
  | m :: rest, acc => by
      rw [List.foldl_cons,
          foldChan_withReplies oracle T hT rest (chanStep oracle acc m)]
      rw [List.any_cons]
      rcases hmt : m.thread_ts with - | t
      · rw [chanStep_withReplies_none oracle acc m hmt]
        have hrm : isReplyTo T m = false := by simp [isReplyTo, hmt]
        rw [hrm]
        simp [Bool.or_assoc]
      · by_cases htT : t = T
        · subst htT
          rw [chanStep_withReplies_some oracle acc m t hmt hT]
          by_cases hr : t ≠ tsOf m
          · rw [if_pos hr]
            have hrm : isReplyTo t m = true := by
              simp [isReplyTo, hmt]
              exact fun h2 => hr h2.symm
            rw [hrm, setAdd_contains]
            simp
          · rw [if_neg hr]
            push_neg at hr
            have hrm : isReplyTo t m = false := by
              simp [isReplyTo, hmt, hr]
            rw [hrm]
            simp [Bool.or_assoc]
        · have hne : m.thread_ts ≠ some T := by
            rw [hmt]
            intro h2
            exact htT (Option.some.inj h2)
          have hrm : isReplyTo T m = false := by
            simp [isReplyTo, hne]
          rw [hrm]
          have hwr2 : (chanStep oracle acc m).withReplies.contains T =
              acc.withReplies.contains T := by
            by_cases ht : t = ""
            · rw [chanStep_withReplies_empty oracle acc m (ht ▸ hmt)]
            · rw [chanStep_withReplies_some oracle acc m t hmt ht]
              split
              · rw [setAdd_contains]
                simp [Ne.symm htT]
              · rfl
          rw [hwr2]
          simp [Bool.or_assoc]

/-- C4: for a thread key `T`, after `process_channel` succeeds the
reply-count dict maps `T` (when some message carries the key) to exactly the
number `k` of messages whose `thread_ts` is `T` and whose own timestamp
differs from `T`, and every output message with timestamp `T` is marked
`has_replies` exactly when `k > 0`. -/
theorem thread_reply_counting (oracle : Nat → FetchOutcome)
    (dayMsgs : List Message) (st0 : ChannelState) (T : String)
    (out : ChannelOutput) (hT : T ≠ "")
    (hout : process_channel oracle dayMsgs st0 = Except.ok out) :
    ((∃ m ∈ dayMsgs, m.thread_ts = some T) →
      dictGet out.counts T = some (repliesIn T dayMsgs)) ∧
    (∀ pm ∈ out.messages, pm.ts = some T →
      pm.has_replies = decide (0 < repliesIn T dayMsgs)) := by
  have hcounts := foldChan_counts oracle T hT dayMsgs ⟨[], [], [], st0, 0⟩
  have hwr := foldChan_withReplies oracle T hT dayMsgs ⟨[], [], [], st0, 0⟩
  unfold process_channel chanFinish at hout
  set acc := channelFirstPass oracle dayMsgs st0 with hacc
  have haccfold : acc = dayMsgs.foldl (chanStep oracle) ⟨[], [], [], st0, 0⟩ := rfl
  split at hout
  · -- empty channel: out carries the (unchanged) dict and no messages
    obtain rfl : (⟨[], acc.counts, acc.withReplies, acc.st, acc.tsWarnings⟩ :
        ChannelOutput) = out := by
      exact Except.ok.inj hout
    constructor
    · rintro ⟨m, hm, hmT⟩
      show dictGet acc.counts T = _
      rw [haccfold, hcounts, if_pos (Or.inl ⟨m, hm, hmT⟩)]
      simp [dictGet]
    · intro pm hpm
      simp at hpm
  · split at hout
    · obtain rfl : (⟨(insSort pmLe acc.all).map (markReplies acc.withReplies),
          acc.counts, acc.withReplies, acc.st, acc.tsWarnings⟩ : ChannelOutput)
          = out := Except.ok.inj hout
      constructor
      · rintro ⟨m, hm, hmT⟩
        show dictGet acc.counts T = _
        rw [haccfold, hcounts, if_pos (Or.inl ⟨m, hm, hmT⟩)]
        simp [dictGet]
      · intro pm hpm hts
        simp only [List.mem_map] at hpm
        obtain ⟨pm0, -, rfl⟩ := hpm
        show acc.withReplies.contains (pm0.ts.getD "0") = _
        have : pm0.ts = some T := hts
        rw [this]
        show acc.withReplies.contains T = _
        rw [haccfold, hwr]
        simp only [List.contains_nil, Bool.false_or]
        rcases hx : dayMsgs.any (isReplyTo T) with - | -
        · rw [List.any_eq_false] at hx
          have hz : repliesIn T dayMsgs = 0 := by
            unfold repliesIn
            rw [List.countP_eq_zero]
            exact hx
          simp [hz]
        · rw [List.any_eq_true] at hx
          have hp : 0 < repliesIn T dayMsgs := by
            unfold repliesIn
            rw [List.countP_pos_iff]
            exact hx
          simp [hp]
    · exact absurd hout (by simp)

theorem thread_reply_counting_witness :
    ((∃ m ∈ [(⟨some "1", some "1", [], []⟩ : Message),
             ⟨some "2", some "1", [], []⟩], m.thread_ts = some "1") →
      dictGet (⟨[⟨some "1", some "1", [], true⟩, ⟨some "2", some "1", [], false⟩],
          [("1", 1)], ["1"], ⟨[], [], [], 0⟩, 0⟩ : ChannelOutput).counts "1" =
        some (repliesIn "1" [⟨some "1", some "1", [], []⟩,
                             ⟨some "2", some "1", [], []⟩])) ∧
    (∀ pm ∈ (⟨[⟨some "1", some "1", [], true⟩, ⟨some "2", some "1", [], false⟩],
          [("1", 1)], ["1"], ⟨[], [], [], 0⟩, 0⟩ : ChannelOutput).messages,
      pm.ts = some "1" →
      pm.has_replies = decide (0 < repliesIn "1"
        [⟨some "1", some "1", [], []⟩, ⟨some "2", some "1", [], []⟩])) :=
  thread_reply_counting (fun _ => FetchOutcome.ok 1)
    [⟨some "1", some "1", [], []⟩, ⟨some "2", some "1", [], []⟩]
    ⟨[], [], [], 0⟩ "1"
    ⟨[⟨some "1", some "1", [], true⟩, ⟨some "2", some "1", [], false⟩],
     [("1", 1)], ["1"], ⟨[], [], [], 0⟩, 0⟩
    (by decide) rfl

theorem pairwise_insertSorted (le : α → α → Bool)
    (htot : ∀ a b, le a b = true ∨ le b a = true)
    (htrans : ∀ a b c, le a b = true → le b c = true → le a c = true) (x : α) :
    ∀ l, l.Pairwise (fun a b => le a b = true) →
      (insertSorted le x l).Pairwise (fun a b => le a b = true)
  | [], _ => by simp [insertSorted]
  | y :: ys, hp => by
      obtain ⟨hy, hys⟩ := List.pairwise_cons.mp hp
      unfold insertSorted
      split
      case isTrue h =>
        refine List.pairwise_cons.mpr ⟨?_, hp⟩
        intro b hb
        rcases List.mem_cons.mp hb with rfl | hb
        · exact h
        · exact htrans x y b h (hy b hb)
      case isFalse h =>
        have hyx : le y x = true := by
          rcases htot x y with h2 | h2
          · exact absurd h2 h
          · exact h2
        refine List.pairwise_cons.mpr ⟨?_, pairwise_insertSorted le htot htrans x ys hys⟩
        intro b hb
        have hmem : b = x ∨ b ∈ ys := by
          have : ∀ zs, b ∈ insertSorted le x zs → b = x ∨ b ∈ zs := by
            intro zs
            induction zs with
            | nil => simp [insertSorted]
            | cons z zs ih =>
                unfold insertSorted
                split
                · intro hb2
                  rcases List.mem_cons.mp hb2 with rfl | hb2
                  · exact Or.inl rfl
                  · exact Or.inr hb2
                · intro hb2
                  rcases List.mem_cons.mp hb2 with rfl | hb2
                  · exact Or.inr (List.mem_cons_self _ _)
                  · rcases ih hb2 with h3 | h3
                    · exact Or.inl h3
                    · exact Or.inr (List.mem_cons_of_mem _ h3)
          exact this ys hb
        rcases hmem with rfl | hb2
        · exact hyx
        · exact hy b hb2

theorem pairwise_insSort (le : α → α → Bool)
    (htot : ∀ a b, le a b = true ∨ le b a = true)
    (htrans : ∀ a b c, le a b = true → le b c = true → le a c = true) :
    ∀ l : List α, (insSort le l).Pairwise (fun a b => le a b = true)
  | [] => List.Pairwise.nil
  | x :: xs =>
      pairwise_insertSorted le htot htrans x (insSort le xs)
        (pairwise_insSort le htot htrans xs)

theorem filter_insertSorted (le : α → α → Bool) (p : α → Bool) (x : α)
    (hclass : ∀ a b, p a = true → p b = true → le a b = true) :
    ∀ l, (insertSorted le x l).filter p =
      if p x then x :: l.filter p else l.filter p
  | [] => by
      unfold insertSorted
      rw [List.filter_cons]
  | y :: ys => by
      unfold insertSorted
      split
      case isTrue h =>
        rw [List.filter_cons]
      case isFalse h =>
        rw [List.filter_cons, filter_insertSorted le p x hclass ys,
            List.filter_cons]
        by_cases hpx : p x
        · have hpy : p y = false := by
            rcases hy : p y with - | -
            · rfl
            · exact absurd (hclass x y hpx hy) h
          simp [hpx, hpy]
        · simp [hpx]

theorem filter_insSort (le : α → α → Bool) (p : α → Bool)
    (hclass : ∀ a b, p a = true → p b = true → le a b = true) :
    ∀ l : List α, (insSort le l).filter p = l.filter p
  | [] => rfl
  | x :: xs => by
      unfold insSort
      rw [filter_insertSorted le p x hclass (insSort le xs),
          filter_insSort le p hclass xs, List.filter_cons]

theorem defaultTs_ts (m : Message) : (defaultTs m).ts = some (tsOf m) := by
  unfold defaultTs tsOf
  cases h : m.ts <;> simp [h]

theorem chanStep_all (oracle : Nat → FetchOutcome) (acc : ChanAcc) (m : Message) :
    (chanStep oracle acc m).all =
      acc.all ++ [(process_message oracle (defaultTs m) acc.st).2] := by
  unfold chanStep
  cases h : (defaultTs m).thread_ts with
  | none => simp [h]
  | some t => by_cases ht : t = "" <;> simp [h, ht]

theorem chanStep_warn (oracle : Nat → FetchOutcome) (acc : ChanAcc) (m : Message) :
    (chanStep oracle acc m).tsWarnings =
      acc.tsWarnings + (if m.ts = none then 1 else 0) := by
  unfold chanStep
  cases h : (defaultTs m).thread_ts with
  | none => simp [h]
  | some t => by_cases ht : t = "" <;> simp [h, ht]

theorem foldChan_all_ts (oracle : Nat → FetchOutcome) :
    ∀ (msgs : List Message) (acc : ChanAcc),
      ((msgs.foldl (chanStep oracle) acc).all).map (fun pm => pm.ts) =
        acc.all.map (fun pm => pm.ts) ++ msgs.map (fun m => some (tsOf m))
  | [], acc => by simp
  | m :: rest, acc => by
      rw [List.foldl_cons, foldChan_all_ts oracle rest (chanStep oracle acc m),
          chanStep_all]
      have hts : (process_message oracle (defaultTs m) acc.st).2.ts =
          some (tsOf m) := defaultTs_ts m
      simp [hts]

theorem foldChan_warn (oracle : Nat → FetchOutcome) :
    ∀ (msgs : List Message) (acc : ChanAcc),
      (msgs.foldl (chanStep oracle) acc).tsWarnings =
        acc.tsWarnings + msgs.countP (fun m => decide (m.ts = none))
  | [], acc => by simp
  | m :: rest, acc => by
      rw [List.foldl_cons, foldChan_warn oracle rest (chanStep oracle acc m),
          chanStep_warn, List.countP_cons]
      by_cases h : m.ts = none
      · simp [h]
        omega
      · simp [h]

/-- C5: when `process_channel` succeeds, (i) its message sequence is
non-decreasing in the numeric timestamp key; (ii) for every key value, the
subsequence of messages with that key equals the corresponding subsequence
of the (input-ordered) first-pass list — the stable-sort guarantee; (iii)
the first-pass list carries the input messages' timestamps in input order
(with the sentinel applied); (iv) a message lacking a timestamp is assigned
the sentinel `"0"`; (v) one warning is logged per such message. -/
theorem channel_sort_stable (oracle : Nat → FetchOutcome)
    (dayMsgs : List Message) (st0 : ChannelState) (out : ChannelOutput)
    (hout : process_channel oracle dayMsgs st0 = Except.ok out) :
    out.messages.Pairwise (fun a b => pmLe a b = true) ∧
    (∀ q : ℚ, out.messages.filter (fun pm => decide (pmKey pm = some q)) =
      ((channelFirstPass oracle dayMsgs st0).all.map
        (markReplies (channelFirstPass oracle dayMsgs st0).withReplies)).filter
        (fun pm => decide (pmKey pm = some q))) ∧
    ((channelFirstPass oracle dayMsgs st0).all.map (fun pm => pm.ts) =
      dayMsgs.map (fun m => some (tsOf m))) ∧
    (∀ m ∈ dayMsgs, m.ts = none → defaultTs m = { m with ts := some "0" }) ∧
    (channelFirstPass oracle dayMsgs st0).tsWarnings =
      dayMsgs.countP (fun m => decide (m.ts = none)) := by
  have htot : ∀ a b : PMsg, pmLe a b = true ∨ pmLe b a = true := by
    intro a b
    unfold pmLe
    rcases le_total ((pmKey a).getD 0) ((pmKey b).getD 0) with h | h
    · exact Or.inl (by simpa using h)
    · exact Or.inr (by simpa using h)
  have htrans : ∀ a b c : PMsg, pmLe a b = true → pmLe b c = true →
      pmLe a c = true := by
    intro a b c hab hbc
    unfold pmLe at hab hbc ⊢
    simp only [decide_eq_true_eq] at hab hbc ⊢
    exact le_trans hab hbc
  refine ⟨?_, ?_, ?_, ?_, ?_⟩
  · unfold process_channel chanFinish at hout
    split at hout
    · obtain rfl : (⟨[], _, _, _, _⟩ : ChannelOutput) = out := Except.ok.inj hout
      exact List.Pairwise.nil
    · split at hout
      · obtain rfl := Except.ok.inj hout
        show (((insSort pmLe (channelFirstPass oracle dayMsgs st0).all)).map _).Pairwise _
        rw [List.pairwise_map]
        exact (pairwise_insSort pmLe htot htrans _).imp (fun h => h)
      · exact absurd hout (by simp)
  · intro q
    have hclass : ∀ a b : PMsg,
        decide (pmKey a = some q) = true → decide (pmKey b = some q) = true →
        pmLe a b = true := by
      intro a b ha hb
      simp only [decide_eq_true_eq] at ha hb
      unfold pmLe
      rw [ha, hb]
      simp
    unfold process_channel chanFinish at hout
    split at hout
    case isTrue hempty =>
      obtain rfl : (⟨[], _, _, _, _⟩ : ChannelOutput) = out := Except.ok.inj hout
      show ([].filter _ : List PMsg) = _
      rw [hempty]
      rfl
    case isFalse =>
      split at hout
      · obtain rfl := Except.ok.inj hout
        show ((insSort pmLe (channelFirstPass oracle dayMsgs st0).all).map _).filter _
          = _
        rw [List.filter_map, List.filter_map]
        congr 1
        exact filter_insSort pmLe _ hclass _
      · exact absurd hout (by simp)
  · exact foldChan_all_ts oracle dayMsgs ⟨[], [], [], st0, 0⟩
  · intro m _ hm
    unfold defaultTs
    rw [if_pos hm]
  · have := foldChan_warn oracle dayMsgs ⟨[], [], [], st0, 0⟩
    simpa using this

theorem channel_sort_stable_witness :
    (⟨[⟨some "0", none, [], false⟩, ⟨some "2", none, [], false⟩,
       ⟨some "2", some "2", [], false⟩], [("2", 0)], [],
      ⟨[], [], [], 0⟩, 1⟩ : ChannelOutput).messages.Pairwise
        (fun a b => pmLe a b = true) ∧
    (∀ q : ℚ, (⟨[⟨some "0", none, [], false⟩, ⟨some "2", none, [], false⟩,
        ⟨some "2", some "2", [], false⟩], [("2", 0)], [],
       ⟨[], [], [], 0⟩, 1⟩ : ChannelOutput).messages.filter
          (fun pm => decide (pmKey pm = some q)) =
      ((channelFirstPass (fun _ => FetchOutcome.ok 1)
          [⟨some "2", none, [], []⟩, ⟨none, none, [], []⟩,
           ⟨some "2", some "2", [], []⟩] ⟨[], [], [], 0⟩).all.map
        (markReplies (channelFirstPass (fun _ => FetchOutcome.ok 1)
          [⟨some "2", none, [], []⟩, ⟨none, none, [], []⟩,
           ⟨some "2", some "2", [], []⟩] ⟨[], [], [], 0⟩).withReplies)).filter
        (fun pm => decide (pmKey pm = some q))) ∧
    ((channelFirstPass (fun _ => FetchOutcome.ok 1)
        [⟨some "2", none, [], []⟩, ⟨none, none, [], []⟩,
         ⟨some "2", some "2", [], []⟩] ⟨[], [], [], 0⟩).all.map
        (fun pm => pm.ts) =
      [⟨some "2", none, [], []⟩, ⟨none, none, [], []⟩,
       (⟨some "2", some "2", [], []⟩ : Message)].map (fun m => some (tsOf m))) ∧
    (∀ m ∈ [⟨some "2", none, [], []⟩, ⟨none, none, [], []⟩,
        (⟨some "2", some "2", [], []⟩ : Message)], m.ts = none →
      defaultTs m = { m with ts := some "0" }) ∧
    (channelFirstPass (fun _ => FetchOutcome.ok 1)
        [⟨some "2", none, [], []⟩, ⟨none, none, [], []⟩,
         ⟨some "2", some "2", [], []⟩] ⟨[], [], [], 0⟩).tsWarnings =
      [⟨some "2", none, [], []⟩, ⟨none, none, [], []⟩,
       (⟨some "2", some "2", [], []⟩ : Message)].countP
        (fun m => decide (m.ts = none)) :=
  channel_sort_stable (fun _ => FetchOutcome.ok 1)
    [⟨some "2", none, [], []⟩, ⟨none, none, [], []⟩,
     ⟨some "2", some "2", [], []⟩] ⟨[], [], [], 0⟩
    ⟨[⟨some "0", none, [], false⟩, ⟨some "2", none, [], false⟩,
      ⟨some "2", some "2", [], false⟩], [("2", 0)], [], ⟨[], [], [], 0⟩, 1⟩
    rfl

/-- C6 (counterexample to the claim as stated): a channel whose sort hits an
unparsable timestamp aborts the whole run — the following healthy channel is
never processed, so the per-channel-fatality claim fails. -/
theorem bad_timestamp_aborts_run :
    runChannels (fun _ => FetchOutcome.ok 1)
      [(some [⟨some "abc", none, [], []⟩], []),
       (some [⟨some "1.0", none, [], []⟩], [])] =
    ([], some "ValueError: could not convert string to float") := by
  decide

/-- C6 (amended): a missing channel data directory is reported and only that
channel is skipped — the loop continues with the remaining channels; but an
unparsable timestamp raises out of `process_channel`, and since `main` calls
it with no surrounding handler the exception ends the whole run: no channel
after it is processed. -/
theorem structural_failure_semantics (oracle : Nat → FetchOutcome)
    (rest : List (Option (List Message) × List String)) (fsinit : List String)
    (msgs : List Message) (e : String)
    (herr : process_channel oracle msgs ⟨fsinit, [], [], 0⟩ = Except.error e) :
    runChannels oracle ((none, fsinit) :: rest) =
      (ChannelReport.skippedMissingDir :: (runChannels oracle rest).1,
       (runChannels oracle rest).2) ∧
    runChannels oracle ((some msgs, fsinit) :: rest) = ([], some e) := by
  constructor
  · simp [runChannels, process_channel_opt]
  · simp [runChannels, process_channel_opt, herr, Except.map]

theorem structural_failure_semantics_witness :
    (runChannels (fun _ => FetchOutcome.ok 1)
        ((none, []) :: [(some [⟨some "1.0", none, [], []⟩], [])]) =
      (ChannelReport.skippedMissingDir ::
        (runChannels (fun _ => FetchOutcome.ok 1)
          [(some [⟨some "1.0", none, [], []⟩], [])]).1,
       (runChannels (fun _ => FetchOutcome.ok 1)
          [(some [⟨some "1.0", none, [], []⟩], [])]).2)) ∧
    runChannels (fun _ => FetchOutcome.ok 1)
        ((some [⟨some "abc", none, [], []⟩], []) ::
          [(some [⟨some "1.0", none, [], []⟩], [])]) =
      ([], some "ValueError: could not convert string to float") :=
  structural_failure_semantics (fun _ => FetchOutcome.ok 1)
    [(some [⟨some "1.0", none, [], []⟩], [])] []
    [⟨some "abc", none, [], []⟩] "ValueError: could not convert string to float"
    rfl

end SlackViewer
